import Mathlib

/-!
# Verification of the Colosseum agent-hackathon analytics core

Shallow embedding of the behavioral-scoring and anomaly-detection pipeline:

* `Collector.analyzeAgentBehavior` — the content classifier of
  `backend/src/collector.ts` (three heuristics, clamp, renormalize).
* `SimpleCollector.analyzeAgentBehavior` — the classifier of
  `backend/src/simple-collector.js` (five heuristics, renormalize).
* `Collector.collectForumData` — the dedup-and-append collection step of
  `collector.ts` (known-entries ledger keyed by `(type, id)`).
* `AnalyticsService.getTopAgents` / `getBehaviorDistribution` — the
  aggregation views of `analytics-service.ts`.
* `RealtimeSvc.updateAgentStatistics`, `RealtimeSvc.detectCoordinatedPosting`,
  `RealtimeSvc.detectSuspiciousPatterns` — `realtime-analytics-service.ts`.
* `SqlFns.update_agent_interaction`, `SqlFns.trackInteraction`,
  `SqlFns.growthRate` / `SqlFns.isOrganicSql` — the Supabase upserts and the
  `update_agent_growth` SQL function.

Conventions of the embedding:

* JS numbers holding message counts and scores are `ℕ`; SQL `NUMERIC`
  values (growth rate, score averages) are `ℚ`.
* `Math.round x` (round half toward `+∞` for the non-negative values that
  occur here) on a rational `num / den` is `(2 * num + den) / (2 * den)`
  in natural division (`jsRound`).  For every raw score pair reachable in
  the classifiers the quotient is far enough from a half-integer that
  double-precision evaluation agrees with this exact rational model.
* ISO-8601 timestamp strings compare lexicographically in the source; the
  embedding uses `ℕ` timestamps (epoch milliseconds), which is
  order-isomorphic on the relevant comparisons.
* JS regexes in the classifier are alternations of literals plus three
  patterns using `\d`, `\+?` and `\s*`; each is embedded as an exact
  scanner over the character list (`\s` is modelled by `Char.isWhitespace`).
* A JS `Map` (insertion-ordered) is modelled as an association list whose
  update rewrites an existing key in place and appends a fresh key;
  a JS `Set` is modelled by `uniqFirst` (first occurrence kept).
-/

namespace JsStr

/-- Lower-cased character list of a string (models `content.toLowerCase()`
for the `/i` regex flags; all pattern literals are ASCII). -/
def lowerData (s : String) : List Char := s.data.map Char.toLower

/-- Does `pat` occur at the head of `l`? -/
def startsWithPat : List Char → List Char → Bool
  | [], _ => true
  | _ :: _, [] => false
  | p :: ps, c :: cs => p == c && startsWithPat ps cs

/-- Does `pat` occur anywhere in `l` (substring containment)? -/
def containsPat (pat : List Char) : List Char → Bool
  | [] => pat.isEmpty
  | c :: cs => startsWithPat pat (c :: cs) || containsPat pat cs

/-- Substring test with a string pattern. -/
def containsStr (pat : String) (l : List Char) : Bool := containsPat pat.data l

/-- An alternation of literal substrings (`/a|b|c/`). -/
def anyLit (pats : List String) (l : List Char) : Bool :=
  pats.any fun p => containsStr p l

/-- `\d+ms` somewhere in the input: a digit immediately followed by `ms`
(the leading `\d+` needs only its last digit). -/
def hasDigitMs : List Char → Bool
  | [] => false
  | c :: cs => (c.isDigit && startsWithPat "ms".data cs) || hasDigitMs cs

/-- `\d+%` at the head of the input. -/
def matchFracPercent : List Char → Bool
  | [] => false
  | c :: cs => c.isDigit && percentTail cs
where
  percentTail : List Char → Bool
    | [] => false
    | c :: cs => c == '%' || (c.isDigit && percentTail cs)

/-- `/\d+\.\d+%/` somewhere in the input: a digit, a dot, then `\d+%`
(the digit before the dot is the last digit of the first `\d+`). -/
def hasDecimalPercent : List Char → Bool
  | [] => false
  | [_] => false
  | c :: d :: rest =>
    (c.isDigit && d == '.' && matchFracPercent rest) || hasDecimalPercent (d :: rest)

/-- `\s*(lines of code|loc)` at the head (input already lower-cased). -/
def wsThenLoc : List Char → Bool
  | [] => startsWithPat "lines of code".data [] || startsWithPat "loc".data []
  | c :: cs =>
    startsWithPat "lines of code".data (c :: cs) || startsWithPat "loc".data (c :: cs) ||
      (c.isWhitespace && wsThenLoc cs)

/-- `\+?\s*(lines of code|loc)` at the head. -/
def plusWsThenLoc (l : List Char) : Bool :=
  wsThenLoc l ||
    (match l with
     | '+' :: cs => wsThenLoc cs
     | _ => false)

/-- `\d*\+?\s*(lines of code|loc)` at the head. -/
def digitsPlusWsThenLoc : List Char → Bool
  | [] => plusWsThenLoc []
  | c :: cs => plusWsThenLoc (c :: cs) || (c.isDigit && digitsPlusWsThenLoc cs)

/-- `/\d+\+?\s*(lines of code|LOC)/i` somewhere in the (lower-cased) input. -/
def hasLocPattern : List Char → Bool
  | [] => false
  | c :: cs => (c.isDigit && digitsPlusWsThenLoc cs) || hasLocPattern cs

end JsStr

namespace Classifier

open JsStr

/-- `content.includes('##') || content.includes('**') || content.includes('``' + '`')`. -/
def structuredFormatting (content : String) : Bool :=
  containsStr "##" content.data || containsStr "**" content.data ||
    containsStr "```" content.data

/-- Number of the five `technicalPatterns` regexes matching `content`
(the first, fourth and fifth carry the `/i` flag, the second and third do
not). -/
def technicalCount (content : String) : ℕ :=
  (if hasLocPattern (lowerData content) then 1 else 0) +
  (if hasDecimalPercent content.data then 1 else 0) +
  (if hasDigitMs content.data || containsStr "seconds" content.data ||
      containsStr "minutes" content.data then 1 else 0) +
  (if anyLit ["api", "sdk", "rest", "json"] (lowerData content) then 1 else 0) +
  (if anyLit ["github", "repo", "repository"] (lowerData content) then 1 else 0)

/-- `/lol|haha|😂|🤣/i`. -/
def casualLaughter (content : String) : Bool :=
  anyLit ["lol", "haha", "😂", "🤣"] (lowerData content)

/-- `/tbh|honestly|personally/i`. -/
def casualTbh (content : String) : Bool :=
  anyLit ["tbh", "honestly", "personally"] (lowerData content)

/-- `/i think|i feel|in my opinion/i` (collector.ts only). -/
def casualOpinion (content : String) : Bool :=
  anyLit ["i think", "i feel", "in my opinion"] (lowerData content)

/-- `/btw|by the way/i` (collector.ts only). -/
def casualBtw (content : String) : Bool :=
  anyLit ["btw", "by the way"] (lowerData content)

/-- `agentPatterns.some(...)` of simple-collector.js: agent self-reference
phrasing. -/
def agentLanguage (content : String) : Bool :=
  anyLit ["we\x27re building", "we built", "our system"] (lowerData content) ||
    anyLit ["autonomous", "algorithmic", "real-time"] (lowerData content) ||
    anyLit ["would love to", "interested in collaborating"] (lowerData content)

/-- `emotionalPatterns.some(...)` of simple-collector.js. -/
def emotionalExpression (content : String) : Bool :=
  anyLit ["excited", "thrilled", "frustrated"] (lowerData content) ||
    anyLit ["love this", "hate when"] (lowerData content)

/-- `Math.round (num / den)` for non-negative arguments
(round half toward `+∞`), as exact natural arithmetic. -/
def jsRound (num den : ℕ) : ℕ := (2 * num + den) / (2 * den)

/-- Classifier output: the frozen confidence pair plus the joined reason
tags. -/
structure AnalysisResult where
  pureAgentScore : ℕ
  humanControlScore : ℕ
  analysisReason : String
  deriving DecidableEq

end Classifier

namespace Collector

open JsStr Classifier

/-- Raw pure-agent score of `collector.ts` before clamping: baseline 50,
`+10` for structured formatting, `+15` for `technicalMatches >= 2`. -/
def rawPure (content : String) : ℕ :=
  50 + (if structuredFormatting content then 10 else 0) +
    (if 2 ≤ technicalCount content then 15 else 0)

/-- Raw human-control score of `collector.ts`: baseline 50, `+15` for
`casualMatches >= 1` over the four casual patterns. -/
def rawHuman (content : String) : ℕ :=
  50 + (if casualLaughter content || casualTbh content || casualOpinion content ||
          casualBtw content then 15 else 0)

/-- The reason tags pushed by `collector.ts`, in push order. -/
def reasonsList (content : String) : List String :=
  (if structuredFormatting content then ["structured_formatting"] else []) ++
  (if 2 ≤ technicalCount content then ["technical_precision"] else []) ++
  (if casualLaughter content || casualTbh content || casualOpinion content ||
      casualBtw content then ["casual_language"] else [])

/-- `Math.max(0, Math.min(100, score))`. -/
def clampScore (n : ℕ) : ℕ := max 0 (min 100 n)

/-- `analyzeAgentBehavior` of `backend/src/collector.ts`: clamp both raw
scores to `[0,100]`, renormalize to sum 100 when the total is positive,
fall back to `neutral_baseline` when no heuristic fired. -/
def analyzeAgentBehavior (content : String) : AnalysisResult :=
  let p := clampScore (rawPure content)
  let h := clampScore (rawHuman content)
  let total := p + h
  let pureFinal := if 0 < total then jsRound (p * 100) total else p
  let humanFinal := if 0 < total then 100 - pureFinal else h
  { pureAgentScore := pureFinal
    humanControlScore := humanFinal
    analysisReason :=
      if (reasonsList content).isEmpty then "neutral_baseline"
      else String.intercalate ", " (reasonsList content) }

end Collector

namespace SimpleCollector

open JsStr Classifier

/-- Raw pure-agent score of `simple-collector.js`: baseline 50, `+10`
structured, `+15` technical (`>= 2` matches), `+10` agent language. -/
def rawPure (content : String) : ℕ :=
  50 + (if structuredFormatting content then 10 else 0) +
    (if 2 ≤ technicalCount content then 15 else 0) +
    (if agentLanguage content then 10 else 0)

/-- Raw human-control score of `simple-collector.js`: baseline 50, `+15`
casual (two patterns only), `+12` emotional expression. -/
def rawHuman (content : String) : ℕ :=
  50 + (if casualLaughter content || casualTbh content then 15 else 0) +
    (if emotionalExpression content then 12 else 0)

/-- The reason tags pushed by `simple-collector.js`, in push order. -/
def reasonsList (content : String) : List String :=
  (if structuredFormatting content then ["structured_formatting"] else []) ++
  (if 2 ≤ technicalCount content then ["technical_precision"] else []) ++
  (if agentLanguage content then ["agent_language_patterns"] else []) ++
  (if casualLaughter content || casualTbh content then ["casual_language"] else []) ++
  (if emotionalExpression content then ["emotional_expression"] else [])

/-- `analyzeAgentBehavior` of `backend/src/simple-collector.js`: no clamp,
unconditional renormalization, fallback reason `neutral`. -/
def analyzeAgentBehavior (content : String) : AnalysisResult :=
  let p := rawPure content
  let h := rawHuman content
  let total := p + h
  let pureFinal := jsRound (p * 100) total
  { pureAgentScore := pureFinal
    humanControlScore := 100 - pureFinal
    analysisReason :=
      if (reasonsList content).isEmpty then "neutral"
      else String.intercalate ", " (reasonsList content) }

end SimpleCollector

/-- Message kind: the dataset key is `(type, id)` with
`type ∈ {post, comment}`. -/
inductive EntryType where
  | post
  | comment
  deriving DecidableEq

/-- One scored dataset message (the fields of `ConversationEntry` the
pipeline and the analytics views read). -/
structure ConversationEntry where
  type : EntryType
  id : ℕ
  agentId : ℕ
  agentName : String
  pureAgentScore : ℕ
  humanControlScore : ℕ
  createdAt : ℕ
  tags : List String
  deriving DecidableEq

namespace Collector

/-- The ledger key `` `${entry.type}-${entry.id}` ``. -/
def entryKey (e : ConversationEntry) : EntryType × ℕ := (e.type, e.id)

/-- Collector state: the known-entries ledger plus the append-only dataset
(the jsonl file). -/
structure CollectorState where
  knownEntries : List (EntryType × ℕ)
  dataset : List ConversationEntry
  deriving DecidableEq

/-- The admission loop of `collectForumData`: walk the raw batch in order,
skip entries whose key is already known, admit the rest (adding their key
to the ledger as we go).  Returns the grown ledger and the new entries in
encounter order. -/
def admitNew (known : List (EntryType × ℕ)) :
    List ConversationEntry → List (EntryType × ℕ) × List ConversationEntry
  | [] => (known, [])
  | e :: rest =>
    if entryKey e ∈ known then admitNew known rest
    else
      let r := admitNew (entryKey e :: known) rest
      (r.1, e :: r.2)

/-- One run of `collectForumData` over a raw batch: admit the unseen
entries, sort them by `createdAt` ascending, append them to the dataset. -/
def collectForumData (s : CollectorState) (batch : List ConversationEntry) :
    CollectorState :=
  let r := admitNew s.knownEntries batch
  { knownEntries := r.1
    dataset := s.dataset ++ r.2.insertionSort (fun a b => a.createdAt ≤ b.createdAt) }

/-- Number of dataset entries attributed to one agent name (the
`AgentProfile.totalMessages` an aggregate scan would produce). -/
def totalMessagesFor (ds : List ConversationEntry) (name : String) : ℕ :=
  (ds.filter fun e => e.agentName == name).length

end Collector

/-- `uniqAux seen l`: the elements of `l` not in `seen`, first occurrence
kept (models iterating a JS `Set`). -/
def uniqAux {α : Type} [DecidableEq α] (seen : List α) : List α → List α
  | [] => []
  | a :: as => if a ∈ seen then uniqAux seen as else a :: uniqAux (a :: seen) as

/-- De-duplication keeping the first occurrence (JS `new Set(xs)` iterated
in insertion order). -/
def uniqFirst {α : Type} [DecidableEq α] (l : List α) : List α := uniqAux [] l

namespace AnalyticsService

/-- Per-agent accumulator of the `getTopAgents` single pass. -/
structure AgentAcc where
  agentId : ℕ
  messages : ℕ
  posts : ℕ
  comments : ℕ
  pureScores : List ℕ
  humanScores : List ℕ
  tags : List String
  firstSeen : ℕ
  lastSeen : ℕ
  deriving DecidableEq

/-- Accumulator for the first message of an agent. -/
def initAcc (c : ConversationEntry) : AgentAcc where
  agentId := c.agentId
  messages := 1
  posts := if c.type = EntryType.post then 1 else 0
  comments := if c.type = EntryType.comment then 1 else 0
  pureScores := [c.pureAgentScore]
  humanScores := [c.humanControlScore]
  tags := uniqFirst c.tags
  firstSeen := c.createdAt
  lastSeen := c.createdAt

/-- Set-union insert of the message tags into the accumulator tags. -/
def addTags (acc : List String) (new : List String) : List String :=
  new.foldl (fun ts t => if t ∈ ts then ts else ts ++ [t]) acc

/-- Fold one further message of the same agent into its accumulator. -/
def stepAcc (a : AgentAcc) (c : ConversationEntry) : AgentAcc where
  agentId := a.agentId
  messages := a.messages + 1
  posts := a.posts + (if c.type = EntryType.post then 1 else 0)
  comments := a.comments + (if c.type = EntryType.comment then 1 else 0)
  pureScores := a.pureScores ++ [c.pureAgentScore]
  humanScores := a.humanScores ++ [c.humanControlScore]
  tags := addTags a.tags c.tags
  firstSeen := min a.firstSeen c.createdAt
  lastSeen := max a.lastSeen c.createdAt

/-- One step of the `agentMap` update: rewrite the agent's entry in place,
or append a fresh entry (JS `Map` insertion order). -/
def updateAgents (m : List (String × AgentAcc)) (c : ConversationEntry) :
    List (String × AgentAcc) :=
  match m with
  | [] => [(c.agentName, initAcc c)]
  | (k, v) :: rest =>
    if k = c.agentName then (k, stepAcc v c) :: rest
    else (k, v) :: updateAgents rest c

/-- The single pass of `getTopAgents` building the per-agent map. -/
def foldAgents (convs : List ConversationEntry) : List (String × AgentAcc) :=
  convs.foldl updateAgents []

/-- `Math.round (q * 10) / 10` — the one-decimal rounding applied to the
score averages. -/
def roundTenth (q : ℚ) : ℚ := (⌊q * 10 + 1/2⌋ : ℚ) / 10

/-- The derived read view of one agent. -/
structure AgentProfile where
  agentName : String
  agentId : ℕ
  totalMessages : ℕ
  posts : ℕ
  comments : ℕ
  avgPureScore : ℚ
  avgHumanScore : ℚ
  tags : List String
  firstSeen : ℕ
  lastSeen : ℕ
  deriving DecidableEq

/-- Accumulator to profile: averages are the score-list means rounded to
one decimal, tags truncated to five. -/
def toProfile (p : String × AgentAcc) : AgentProfile where
  agentName := p.1
  agentId := p.2.agentId
  totalMessages := p.2.messages
  posts := p.2.posts
  comments := p.2.comments
  avgPureScore := roundTenth ((p.2.pureScores.sum : ℚ) / (p.2.pureScores.length : ℚ))
  avgHumanScore := roundTenth ((p.2.humanScores.sum : ℚ) / (p.2.humanScores.length : ℚ))
  tags := p.2.tags.take 5
  firstSeen := p.2.firstSeen
  lastSeen := p.2.lastSeen

/-- `getTopAgents` of `analytics-service.ts`: aggregate, sort by
`totalMessages` descending (JS `sort` is stable; any stable descending
sort has the same multiset, which is all the claims use), take `limit`. -/
def getTopAgents (limit : ℕ) (convs : List ConversationEntry) : List AgentProfile :=
  (((foldAgents convs).map toProfile).insertionSort
      fun a b => b.totalMessages ≤ a.totalMessages).take limit

/-- The three buckets of `getBehaviorDistribution`. -/
structure Distribution where
  pureAgent : ℕ
  humanControl : ℕ
  mixed : ℕ
  deriving DecidableEq

/-- One message into its bucket: `pureAgentScore > 70`, else
`humanControlScore > 70`, else mixed. -/
def bucketStep (d : Distribution) (c : ConversationEntry) : Distribution :=
  if 70 < c.pureAgentScore then { d with pureAgent := d.pureAgent + 1 }
  else if 70 < c.humanControlScore then { d with humanControl := d.humanControl + 1 }
  else { d with mixed := d.mixed + 1 }

/-- `getBehaviorDistribution` of `analytics-service.ts`. -/
def getBehaviorDistribution (convs : List ConversationEntry) : Distribution :=
  convs.foldl bucketStep ⟨0, 0, 0⟩

/-- The messages attributed to one agent name (the reference point for the
aggregates: the fold groups by `conv.agentName`). -/
def agentConvs (convs : List ConversationEntry) (name : String) :
    List ConversationEntry :=
  convs.filter fun c => c.agentName == name

/-- The pure scores folded for one agent, in fold order. -/
def pureScoresOf (convs : List ConversationEntry) (name : String) : List ℕ :=
  (agentConvs convs name).map (·.pureAgentScore)

/-- The human scores folded for one agent, in fold order. -/
def humanScoresOf (convs : List ConversationEntry) (name : String) : List ℕ :=
  (agentConvs convs name).map (·.humanControlScore)

/-- Arithmetic mean of a list of scores (0 for the empty list, matching
`x / 0 = 0` in `ℚ`). -/
def meanQ (l : List ℕ) : ℚ := (l.sum : ℚ) / (l.length : ℚ)

end AnalyticsService

namespace RealtimeSvc

/-- The statistics `updateAgentStatistics` writes back to the `agents`
row. -/
structure AgentStats where
  totalMessages : ℕ
  posts : ℕ
  comments : ℕ
  avgPureScore : ℚ
  avgHumanScore : ℚ
  firstSeen : ℕ
  lastSeen : ℕ
  deriving DecidableEq

/-- `updateAgentStatistics` of `realtime-analytics-service.ts`: recount the
agent's conversations, compute exact score averages, min/max seen times;
returns `none` when the agent has no conversations (the early return). -/
def updateAgentStatistics (agentId : ℕ) (allConvs : List ConversationEntry) :
    Option AgentStats :=
  let convs := allConvs.filter fun c => c.agentId == agentId
  match convs with
  | [] => none
  | c0 :: _ =>
    some
      { totalMessages := convs.length
        posts := (convs.filter fun c => c.type = EntryType.post).length
        comments := (convs.filter fun c => c.type = EntryType.comment).length
        avgPureScore := ((convs.map (·.pureAgentScore)).sum : ℚ) / (convs.length : ℚ)
        avgHumanScore := ((convs.map (·.humanControlScore)).sum : ℚ) / (convs.length : ℚ)
        firstSeen := (convs.map (·.createdAt)).foldl min c0.createdAt
        lastSeen := (convs.map (·.createdAt)).foldl max c0.createdAt }

/-- `Math.floor(timestamp / 5000)` — the fixed-width 5-second bucket of a
message. -/
def windowKey (c : ConversationEntry) : ℕ := c.createdAt / 5000

/-- One appended `suspicious_patterns` finding (coordinated posting shape:
evidence is the bucket window start and the distinct-agent count). -/
structure SuspiciousPattern where
  pattern_type : String
  agent_ids : List ℕ
  severity : String
  confidence_score : ℕ
  window_start : ℕ
  agent_count : ℕ
  deriving DecidableEq

/-- The distinct agent ids posting in bucket `k` among the last hour's
messages — the `uniqueAgents` value `detectCoordinatedPosting` computes
for that bucket. -/
def bucketAgents (now : ℕ) (convs : List ConversationEntry) (k : ℕ) : List ℕ :=
  uniqFirst
    ((((convs.filter fun c => now - 3600000 ≤ c.createdAt).filter
        fun c => windowKey c == k).map (·.agentId)))

/-- The per-bucket body of `detectCoordinatedPosting`: one finding for a
bucket with at least 3 distinct agent ids, nothing otherwise. -/
def mkCoordinatedFinding (now : ℕ) (convs : List ConversationEntry) (k : ℕ) :
    Option SuspiciousPattern :=
  if 3 ≤ (bucketAgents now convs k).length then
    some
      { pattern_type := "coordinated_posting"
        agent_ids := bucketAgents now convs k
        severity := "medium"
        confidence_score := 75
        window_start := k * 5000
        agent_count := (bucketAgents now convs k).length }
  else none

/-- `detectCoordinatedPosting`: keep the last hour's messages, return early
below 3 of them, group by 5-second bucket (in first-appearance order, as
the JS `Map` iterates), and emit one finding per bucket with at least 3
distinct agent ids. -/
def detectCoordinatedPosting (now : ℕ) (convs : List ConversationEntry) :
    List SuspiciousPattern :=
  let recent := convs.filter fun c => now - 3600000 ≤ c.createdAt
  if recent.length < 3 then []
  else (uniqFirst (recent.map windowKey)).filterMap (mkCoordinatedFinding now convs)

/-- The messages of one agent id (the `eq('agent_id', agentId)` query of
`updateAgentStatistics`). -/
def idConvs (convs : List ConversationEntry) (agentId : ℕ) :
    List ConversationEntry :=
  convs.filter fun c => c.agentId == agentId

/-- Pure scores of one agent id, in query order. -/
def pureScoresOfId (convs : List ConversationEntry) (agentId : ℕ) : List ℕ :=
  (idConvs convs agentId).map (·.pureAgentScore)

/-- Human scores of one agent id, in query order. -/
def humanScoresOfId (convs : List ConversationEntry) (agentId : ℕ) : List ℕ :=
  (idConvs convs agentId).map (·.humanControlScore)

/-- All findings of a list of completed sub-detector results. -/
def okFindings {α ε : Type} (ds : List (Except ε (List α))) : List α :=
  (ds.filterMap Except.toOption).flatten

/-- `detectSuspiciousPatterns`: the four sub-detectors are awaited in
sequence inside one `try`/`catch`.  Each sub-detector either completes
with the findings it inserted or throws; the first throw is caught (and
logged) at the run level, so everything after it is skipped.  Returns the
findings that were inserted and the caught error, if any. -/
def detectSuspiciousPatterns {α ε : Type} :
    List (Except ε (List α)) → List α × Option ε :=
  go []
where
  go (acc : List α) : List (Except ε (List α)) → List α × Option ε
    | [] => (acc, none)
    | Except.ok fs :: rest => go (acc ++ fs) rest
    | Except.error e :: _ => (acc, some e)

end RealtimeSvc

namespace SqlFns

/-- The `agent_interactions` key `(source_agent_id, target_agent_id,
interaction_type)`. -/
structure InteractionKey where
  source_agent_id : ℕ
  target_agent_id : ℕ
  interaction_type : String
  deriving DecidableEq

/-- The mutable columns of one edge row the claims read. -/
structure EdgeData where
  strength : ℕ
  last_interaction : ℕ
  deriving DecidableEq

/-- The `agent_interactions` table, keyed by `InteractionKey`. -/
abbrev EdgeStore : Type := List (InteractionKey × EdgeData)

/-- Row lookup by key. -/
def lookupEdge (st : EdgeStore) (k : InteractionKey) : Option EdgeData :=
  match st with
  | [] => none
  | (k', v) :: rest => if k' = k then some v else lookupEdge rest k

/-- Strength of a key (0 when the edge is absent). -/
def strengthOf (st : EdgeStore) (k : InteractionKey) : ℕ :=
  (lookupEdge st k).elim 0 (·.strength)

/-- The `update_agent_interaction` trigger body: `INSERT ... strength = 1,
last_interaction = NEW.created_at ON CONFLICT DO UPDATE SET strength =
strength + 1, last_interaction = NEW.created_at`. -/
def update_agent_interaction (st : EdgeStore) (k : InteractionKey)
    (created_at : ℕ) : EdgeStore :=
  match st with
  | [] => [(k, { strength := 1, last_interaction := created_at })]
  | (k', v) :: rest =>
    if k' = k then
      (k', { strength := v.strength + 1, last_interaction := created_at }) :: rest
    else (k', v) :: update_agent_interaction rest k created_at

/-- `trackInteraction` of `server-optimized.ts`: a PostgREST upsert whose
payload has no `strength` column — an absent row is created with the
column default `strength = 1`, a conflicting row keeps its strength and
only gets `last_interaction` rewritten to the call time. -/
def trackInteraction (st : EdgeStore) (k : InteractionKey) (now : ℕ) : EdgeStore :=
  match st with
  | [] => [(k, { strength := 1, last_interaction := now })]
  | (k', v) :: rest =>
    if k' = k then (k', { strength := v.strength, last_interaction := now }) :: rest
    else (k', v) :: trackInteraction rest k now

/-- One write to the edge table through either upsert path. -/
inductive EdgeOp where
  | trigger (key : InteractionKey) (created_at : ℕ)
  | track (key : InteractionKey) (now : ℕ)

/-- Apply one edge write. -/
def applyEdgeOp (st : EdgeStore) : EdgeOp → EdgeStore
  | EdgeOp.trigger k t => update_agent_interaction st k t
  | EdgeOp.track k t => trackInteraction st k t

/-- Apply a sequence of edge writes in order. -/
def applyEdgeOps (st : EdgeStore) (ops : List EdgeOp) : EdgeStore :=
  ops.foldl applyEdgeOp st

/-- The `growth_rate` expression of `update_agent_growth`:
`(today - yesterday) / yesterday * 100` when yesterday's count is
positive, `0` otherwise. -/
def growthRate (prev today : ℕ) : ℚ :=
  if 0 < prev then ((today : ℚ) - (prev : ℚ)) / (prev : ℚ) * 100 else 0

/-- The `is_organic` expression of `update_agent_growth`: `false` exactly
when yesterday's count is positive and the rate exceeds 500. -/
def isOrganicSql (prev today : ℕ) : Bool :=
  if 0 < prev ∧ ((today : ℚ) - (prev : ℚ)) / (prev : ℚ) * 100 > 500 then false
  else true

/-- The growth columns of today's `agent_growth_tracking` row touched by
the `UPDATE ... FROM prev` statement (`growth_rate` starts out `NULL`,
`is_organic` defaults `true` on insert). -/
structure GrowthRow where
  growth_rate : Option ℚ
  is_organic : Bool
  deriving DecidableEq

/-- The `UPDATE agent_growth_tracking ... FROM prev` step: with no
prior-day row the update joins nothing and leaves the row untouched;
otherwise it writes the computed rate and organic flag. -/
def applyGrowthUpdate (prevRow : Option ℕ) (today : ℕ) (row : GrowthRow) :
    GrowthRow :=
  match prevRow with
  | none => row
  | some p => { growth_rate := some (growthRate p today), is_organic := isOrganicSql p today }

end SqlFns

/-! ## Theorems -/

section HelperLemmas

theorem uniqAux_sublist_mem {α : Type} [DecidableEq α] :
    ∀ (l : List α) (seen : List α) (x : α), x ∈ uniqAux seen l → x ∈ l := by
  intro l
  induction l with
  | nil => intro seen x h; simp [uniqAux] at h
  | cons a as ih =>
    intro seen x h
    simp only [uniqAux] at h
    split at h
    · exact List.mem_cons_of_mem a (ih seen x h)
    · rcases List.mem_cons.mp h with rfl | h'
      · exact List.mem_cons_self x as
      · exact List.mem_cons_of_mem a (ih (a :: seen) x h')

theorem mem_uniqAux {α : Type} [DecidableEq α] :
    ∀ (l : List α) (seen : List α) (x : α),
      x ∈ uniqAux seen l ↔ x ∈ l ∧ x ∉ seen := by
  intro l
  induction l with
  | nil => intro seen x; simp [uniqAux]
  | cons a as ih =>
    intro seen x
    simp only [uniqAux]
    split
    · rename_i ha
      rw [ih]
      constructor
      · rintro ⟨h1, h2⟩; exact ⟨List.mem_cons_of_mem a h1, h2⟩
      · rintro ⟨h1, h2⟩
        rcases List.mem_cons.mp h1 with rfl | h1'
        · exact absurd ha h2
        · exact ⟨h1', h2⟩
    · rename_i ha
      constructor
      · intro h
        rcases List.mem_cons.mp h with rfl | h'
        · exact ⟨List.mem_cons_self x as, ha⟩
        · rw [ih] at h'
          refine ⟨List.mem_cons_of_mem a h'.1, fun hx => h'.2 (List.mem_cons_of_mem a hx)⟩
      · rintro ⟨h1, h2⟩
        rcases List.mem_cons.mp h1 with rfl | h1'
        · exact List.mem_cons_self x _
        · by_cases hxa : x = a
          · subst hxa; exact List.mem_cons_self x _
          · refine List.mem_cons_of_mem a ?_
            rw [ih]
            refine ⟨h1', fun hx => ?_⟩
            rcases List.mem_cons.mp hx with h | h
            · exact hxa h
            · exact h2 h

theorem nodup_uniqAux {α : Type} [DecidableEq α] :
    ∀ (l : List α) (seen : List α), (uniqAux seen l).Nodup := by
  intro l
  induction l with
  | nil => intro seen; simp [uniqAux]
  | cons a as ih =>
    intro seen
    simp only [uniqAux]
    split
    · exact ih seen
    · refine List.nodup_cons.mpr ⟨fun hmem => ?_, ih (a :: seen)⟩
      exact ((mem_uniqAux as (a :: seen) a).mp hmem).2 (List.mem_cons_self a seen)

theorem length_uniqAux_le {α : Type} [DecidableEq α] :
    ∀ (l : List α) (seen : List α), (uniqAux seen l).length ≤ l.length := by
  intro l
  induction l with
  | nil => intro seen; simp [uniqAux]
  | cons a as ih =>
    intro seen
    simp only [uniqAux]
    split
    · exact Nat.le_succ_of_le (ih seen)
    · simpa using Nat.succ_le_succ (ih (a :: seen))

theorem mem_uniqFirst {α : Type} [DecidableEq α] (l : List α) (x : α) :
    x ∈ uniqFirst l ↔ x ∈ l := by
  simp [uniqFirst, mem_uniqAux]

theorem nodup_uniqFirst {α : Type} [DecidableEq α] (l : List α) :
    (uniqFirst l).Nodup := nodup_uniqAux l []

theorem length_uniqFirst_le {α : Type} [DecidableEq α] (l : List α) :
    (uniqFirst l).length ≤ l.length := length_uniqAux_le l []

/-- Every conversation is a post or a comment, so the two filtered counts
split the length. -/
theorem length_type_split :
    ∀ l : List ConversationEntry,
      l.length = (l.filter fun c => c.type = EntryType.post).length +
        (l.filter fun c => c.type = EntryType.comment).length := by
  intro l
  induction l with
  | nil => simp
  | cons c cs ih =>
    cases h : c.type <;> simp [List.filter_cons, h, ih] <;> omega

/-- One-decimal rounding moves a rational by at most `1/20`. -/
theorem roundTenth_close (q : ℚ) : |AnalyticsService.roundTenth q - q| ≤ 1/20 := by
  have h1 : (⌊q * 10 + 1/2⌋ : ℚ) ≤ q * 10 + 1/2 := Int.floor_le _
  have h2 : q * 10 + 1/2 < (⌊q * 10 + 1/2⌋ : ℚ) + 1 := Int.lt_floor_add_one _
  rw [AnalyticsService.roundTenth, abs_le]
  constructor <;> nlinarith

end HelperLemmas

/-- C1: for every content string each classifier returns a pair with
`pureAgentScore + humanControlScore = 100`, both within `[0,100]` (the
scores are naturals, so the lower bound is inherent), and it always
returns a value — empty content scores the 50/50 baseline. -/
theorem classifier_score_invariant :
    (∀ content : String,
        (Collector.analyzeAgentBehavior content).pureAgentScore +
            (Collector.analyzeAgentBehavior content).humanControlScore = 100 ∧
          (Collector.analyzeAgentBehavior content).pureAgentScore ≤ 100 ∧
          (Collector.analyzeAgentBehavior content).humanControlScore ≤ 100 ∧
          (SimpleCollector.analyzeAgentBehavior content).pureAgentScore +
            (SimpleCollector.analyzeAgentBehavior content).humanControlScore = 100 ∧
          (SimpleCollector.analyzeAgentBehavior content).pureAgentScore ≤ 100 ∧
          (SimpleCollector.analyzeAgentBehavior content).humanControlScore ≤ 100) ∧
    Collector.analyzeAgentBehavior "" =
      { pureAgentScore := 50, humanControlScore := 50,
        analysisReason := "neutral_baseline" } ∧
    SimpleCollector.analyzeAgentBehavior "" =
      { pureAgentScore := 50, humanControlScore := 50,
        analysisReason := "neutral" } := by
  refine ⟨fun content => ?_, by decide, by decide⟩
  have hc : (Collector.analyzeAgentBehavior content).pureAgentScore +
      (Collector.analyzeAgentBehavior content).humanControlScore = 100 ∧
      (Collector.analyzeAgentBehavior content).pureAgentScore ≤ 100 ∧
      (Collector.analyzeAgentBehavior content).humanControlScore ≤ 100 := by
    simp only [Collector.analyzeAgentBehavior, Collector.clampScore, Collector.rawPure,
      Collector.rawHuman, Classifier.jsRound]
    split_ifs <;> first | decide | (rename_i htot; exact absurd (by decide) htot)
  have hs : (SimpleCollector.analyzeAgentBehavior content).pureAgentScore +
      (SimpleCollector.analyzeAgentBehavior content).humanControlScore = 100 ∧
      (SimpleCollector.analyzeAgentBehavior content).pureAgentScore ≤ 100 ∧
      (SimpleCollector.analyzeAgentBehavior content).humanControlScore ≤ 100 := by
    simp only [SimpleCollector.analyzeAgentBehavior, SimpleCollector.rawPure,
      SimpleCollector.rawHuman, Classifier.jsRound]
    split_ifs <;> decide
  exact ⟨hc.1, hc.2.1, hc.2.2, hs.1, hs.2.1, hs.2.2⟩

theorem bucketStep_total (d : AnalyticsService.Distribution) (c : ConversationEntry) :
    (AnalyticsService.bucketStep d c).pureAgent +
        (AnalyticsService.bucketStep d c).humanControl +
        (AnalyticsService.bucketStep d c).mixed =
      d.pureAgent + d.humanControl + d.mixed + 1 := by
  unfold AnalyticsService.bucketStep
  split_ifs <;> simp <;> omega

theorem foldl_bucketStep_total :
    ∀ (convs : List ConversationEntry) (d : AnalyticsService.Distribution),
      (convs.foldl AnalyticsService.bucketStep d).pureAgent +
          (convs.foldl AnalyticsService.bucketStep d).humanControl +
          (convs.foldl AnalyticsService.bucketStep d).mixed =
        d.pureAgent + d.humanControl + d.mixed + convs.length := by
  intro convs
  induction convs with
  | nil => intro d; simp
  | cons c cs ih =>
    intro d
    simp only [List.foldl_cons, List.length_cons, ih, bucketStep_total]
    omega

/-- C9: `behaviorDistribution` assigns every message to exactly one of the
three buckets, so the three counts always sum to the number of
messages. -/
theorem behavior_distribution_partition :
    ∀ convs : List ConversationEntry,
      (AnalyticsService.getBehaviorDistribution convs).pureAgent +
          (AnalyticsService.getBehaviorDistribution convs).humanControl +
          (AnalyticsService.getBehaviorDistribution convs).mixed =
        convs.length := by
  intro convs
  unfold AnalyticsService.getBehaviorDistribution
  simpa using foldl_bucketStep_total convs ⟨0, 0, 0⟩

/-- C6 counterexample: with yesterday's count 10 and today's 70 the code
computes a growth rate of 600 (not 500) and marks the row inorganic. -/
theorem growth_rate_counterexample :
    SqlFns.growthRate 10 70 = 600 ∧ SqlFns.isOrganicSql 10 70 = false := by
  constructor
  · norm_num [SqlFns.growthRate]
  · norm_num [SqlFns.isOrganicSql]

/-- C6 (amended): `growthRate` follows the stated formula with the
division-by-zero guard, `isOrganic` is exactly `growthRate ≤ 500`, and
with no prior-day row the update leaves the row untouched (rate stays
unset rather than 0).  The boundary sits at today = 60 for yesterday = 10
(rate exactly 500, organic); today = 61 gives 510 (inorganic) and
today = 70 gives 600 (inorganic), not 500 as the claim stated. -/
theorem growth_rate_boundary :
    (∀ prev today : ℕ,
        SqlFns.isOrganicSql prev today =
          decide (SqlFns.growthRate prev today ≤ 500)) ∧
    (∀ today : ℕ, SqlFns.growthRate 0 today = 0) ∧
    (∀ (today : ℕ) (row : SqlFns.GrowthRow),
        SqlFns.applyGrowthUpdate none today row = row) ∧
    SqlFns.growthRate 10 60 = 500 ∧ SqlFns.isOrganicSql 10 60 = true ∧
    SqlFns.growthRate 10 61 = 510 ∧ SqlFns.isOrganicSql 10 61 = false ∧
    SqlFns.growthRate 10 70 = 600 ∧ SqlFns.isOrganicSql 10 70 = false := by
  refine ⟨fun prev today => ?_, fun today => ?_, fun today row => rfl,
    by norm_num [SqlFns.growthRate], by norm_num [SqlFns.isOrganicSql],
    by norm_num [SqlFns.growthRate], by norm_num [SqlFns.isOrganicSql],
    by norm_num [SqlFns.growthRate], by norm_num [SqlFns.isOrganicSql]⟩
  · unfold SqlFns.isOrganicSql SqlFns.growthRate
    by_cases hp : 0 < prev
    · by_cases hr : ((today : ℚ) - (prev : ℚ)) / (prev : ℚ) * 100 > 500
      · rw [if_pos ⟨hp, hr⟩, if_pos hp]
        exact (decide_eq_false (not_le.mpr hr)).symm
      · rw [if_neg (by tauto), if_pos hp]
        exact (decide_eq_true (not_lt.mp hr)).symm
    · rw [if_neg (by tauto), if_neg hp]
      norm_num
  · unfold SqlFns.growthRate
    norm_num

theorem detectSuspiciousPatterns_go_ok {α ε : Type} :
    ∀ (pre : List (Except ε (List α))) (acc : List α),
      pre.all (fun d => d.toOption.isSome) = true →
      RealtimeSvc.detectSuspiciousPatterns.go acc pre =
        (acc ++ RealtimeSvc.okFindings pre, none) := by
  intro pre
  induction pre with
  | nil => intro acc _; simp [RealtimeSvc.detectSuspiciousPatterns.go, RealtimeSvc.okFindings]
  | cons d rest ih =>
    intro acc hall
    simp only [List.all_cons, Bool.and_eq_true] at hall
    cases d with
    | error e => simp [Except.toOption] at hall
    | ok fs =>
      simp only [RealtimeSvc.detectSuspiciousPatterns.go, RealtimeSvc.okFindings,
        List.filterMap_cons, Except.toOption, List.flatten_cons]
      rw [ih (acc ++ fs) hall.2]
      simp [RealtimeSvc.okFindings, List.append_assoc]

theorem detectSuspiciousPatterns_go_error {α ε : Type} :
    ∀ (pre : List (Except ε (List α))) (acc : List α) (e : ε)
      (post : List (Except ε (List α))),
      pre.all (fun d => d.toOption.isSome) = true →
      RealtimeSvc.detectSuspiciousPatterns.go acc (pre ++ Except.error e :: post) =
        (acc ++ RealtimeSvc.okFindings pre, some e) := by
  intro pre
  induction pre with
  | nil =>
    intro acc e post _
    simp [RealtimeSvc.detectSuspiciousPatterns.go, RealtimeSvc.okFindings]
  | cons d rest ih =>
    intro acc e post hall
    simp only [List.all_cons, Bool.and_eq_true] at hall
    cases d with
    | error e' => simp [Except.toOption] at hall
    | ok fs =>
      simp only [List.cons_append, RealtimeSvc.detectSuspiciousPatterns.go,
        RealtimeSvc.okFindings, List.filterMap_cons, Except.toOption, List.flatten_cons,
        List.append_eq]
      rw [ih (acc ++ fs) e post hall.2]
      simp [RealtimeSvc.okFindings, List.append_assoc]

/-- C8 counterexample: when the first sub-detector of a run throws, the
run is caught as a whole — a later sub-detector that would have
contributed findings contributes nothing, because it never executes. -/
theorem detector_isolation_counterexample :
    RealtimeSvc.detectSuspiciousPatterns
        ([Except.error 0, Except.ok [7]] : List (Except ℕ (List ℕ))) =
      ([], some 0) := by decide

/-- C8 (amended): `detectSuspiciousPatterns` wraps all sub-detectors in a
single try/catch.  A failure is caught (the run itself never throws) and
the failing sub-detector contributes no findings, but the sub-detectors
after it are skipped for the run; only those before it still contribute
their findings.  A fully successful run collects every sub-detector's
findings. -/
theorem detector_isolation {α ε : Type} :
    (∀ (pre post : List (Except ε (List α))) (e : ε),
        pre.all (fun d => d.toOption.isSome) = true →
        RealtimeSvc.detectSuspiciousPatterns (pre ++ Except.error e :: post) =
          (RealtimeSvc.okFindings pre, some e)) ∧
    (∀ ds : List (Except ε (List α)),
        ds.all (fun d => d.toOption.isSome) = true →
        RealtimeSvc.detectSuspiciousPatterns ds = (RealtimeSvc.okFindings ds, none)) := by
  constructor
  · intro pre post e hall
    unfold RealtimeSvc.detectSuspiciousPatterns
    simpa using detectSuspiciousPatterns_go_error pre [] e post hall
  · intro ds hall
    unfold RealtimeSvc.detectSuspiciousPatterns
    simpa using detectSuspiciousPatterns_go_ok ds [] hall

theorem detector_isolation_witness :
    RealtimeSvc.detectSuspiciousPatterns
        ([Except.ok [1], Except.error 5, Except.ok [2]] : List (Except ℕ (List ℕ))) =
      ([1], some 5) := by
  have h := (detector_isolation (α := ℕ) (ε := ℕ)).1 [Except.ok [1]] [Except.ok [2]] 5
    (by decide)
  simpa [RealtimeSvc.okFindings, Except.toOption] using h

/-- C3 counterexample: the collector.ts classifier does not react to
"autonomous" at all (no `+10`, reason stays `neutral_baseline`), while the
simple-collector classifier — the one that has the two heuristics — tags a
no-heuristic message `neutral`, not `neutral_baseline`. -/
theorem classifier_heuristic_tags_counterexample :
    Collector.analyzeAgentBehavior "autonomous" =
      { pureAgentScore := 50, humanControlScore := 50,
        analysisReason := "neutral_baseline" } ∧
    (SimpleCollector.analyzeAgentBehavior "").analysisReason = "neutral" := by
  decide

/-- C3 (amended): the simple-collector classifier tests the
agent-self-reference heuristic ("we built", "autonomous", "would love
to …" all fire it) adding `+10` with tag `agent_language_patterns`, and
the emotional-expression heuristic ("excited", "love this", "frustrated")
adding `+12` with tag `emotional_expression`; when no heuristic fires its
reason is exactly `neutral`.  The collector.ts classifier has neither
heuristic (its raw pure score differs from the simple one exactly by the
agent-language `+10`) and reports `neutral_baseline` when none of its own
heuristics fire. -/
theorem classifier_heuristic_tags :
    Classifier.agentLanguage "we built" = true ∧
    Classifier.agentLanguage "autonomous" = true ∧
    Classifier.agentLanguage "would love to collaborate" = true ∧
    Classifier.emotionalExpression "excited" = true ∧
    Classifier.emotionalExpression "love this" = true ∧
    Classifier.emotionalExpression "frustrated" = true ∧
    (∀ content : String,
        SimpleCollector.rawPure content =
          Collector.rawPure content +
            (if Classifier.agentLanguage content then 10 else 0)) ∧
    (∀ content : String, Classifier.agentLanguage content = true →
        "agent_language_patterns" ∈ SimpleCollector.reasonsList content) ∧
    (∀ content : String, Classifier.emotionalExpression content = true →
        "emotional_expression" ∈ SimpleCollector.reasonsList content) ∧
    SimpleCollector.rawPure "autonomous" = 60 ∧
    SimpleCollector.rawHuman "excited" = 62 ∧
    SimpleCollector.analyzeAgentBehavior "autonomous" =
      { pureAgentScore := 55, humanControlScore := 45,
        analysisReason := "agent_language_patterns" } ∧
    SimpleCollector.analyzeAgentBehavior "excited" =
      { pureAgentScore := 45, humanControlScore := 55,
        analysisReason := "emotional_expression" } ∧
    (∀ content : String, SimpleCollector.reasonsList content = [] →
        (SimpleCollector.analyzeAgentBehavior content).analysisReason = "neutral") ∧
    (∀ content : String, Collector.reasonsList content = [] →
        (Collector.analyzeAgentBehavior content).analysisReason = "neutral_baseline") := by
  refine ⟨by decide, by decide, by decide, by decide, by decide, by decide,
    fun content => ?_, fun content h => ?_, fun content h => ?_,
    by decide, by decide, by decide, by decide,
    fun content h => ?_, fun content h => ?_⟩
  · unfold SimpleCollector.rawPure Collector.rawPure
    split_ifs <;> rfl
  · unfold SimpleCollector.reasonsList
    simp [h]
  · unfold SimpleCollector.reasonsList
    simp [h]
  · simp [SimpleCollector.analyzeAgentBehavior, h]
  · simp [Collector.analyzeAgentBehavior, h]

theorem classifier_heuristic_tags_witness :
    (SimpleCollector.analyzeAgentBehavior "").analysisReason = "neutral" ∧
    (Collector.analyzeAgentBehavior "").analysisReason = "neutral_baseline" := by
  obtain ⟨-, -, -, -, -, -, -, -, -, -, -, -, -, h14, h15⟩ := classifier_heuristic_tags
  exact ⟨h14 "" (by decide), h15 "" (by decide)⟩

/-- C10 counterexample: on "lol excited" (casual `+15` and emotional
`+12`, nothing else) the simple-collector classifier returns a renormalized
human-control score of 61, above the claimed cap of 57. -/
theorem classifier_below_threshold_counterexample :
    (SimpleCollector.analyzeAgentBehavior "lol excited").humanControlScore = 61 := by
  decide

/-- C10 (amended): the renormalized pure-agent score never exceeds 63 and
the renormalized human-control score never exceeds 61 for the
simple-collector classifier (60 and 57 for the collector.ts one) — all
strictly below the 70 threshold, so every message scored by either
classifier lands in the `mixed` bucket of `behaviorDistribution`. -/
theorem classifier_below_threshold :
    ∀ content : String,
      (SimpleCollector.analyzeAgentBehavior content).pureAgentScore ≤ 63 ∧
      (SimpleCollector.analyzeAgentBehavior content).humanControlScore ≤ 61 ∧
      (Collector.analyzeAgentBehavior content).pureAgentScore ≤ 60 ∧
      (Collector.analyzeAgentBehavior content).humanControlScore ≤ 57 ∧
      (∀ d : AnalyticsService.Distribution,
          AnalyticsService.bucketStep d
            { type := EntryType.post, id := 0, agentId := 0, agentName := "",
              pureAgentScore := (SimpleCollector.analyzeAgentBehavior content).pureAgentScore,
              humanControlScore := (SimpleCollector.analyzeAgentBehavior content).humanControlScore,
              createdAt := 0, tags := [] } =
            { d with mixed := d.mixed + 1 }) ∧
      (∀ d : AnalyticsService.Distribution,
          AnalyticsService.bucketStep d
            { type := EntryType.post, id := 0, agentId := 0, agentName := "",
              pureAgentScore := (Collector.analyzeAgentBehavior content).pureAgentScore,
              humanControlScore := (Collector.analyzeAgentBehavior content).humanControlScore,
              createdAt := 0, tags := [] } =
            { d with mixed := d.mixed + 1 }) := by
  intro content
  have hs : (SimpleCollector.analyzeAgentBehavior content).pureAgentScore ≤ 63 ∧
      (SimpleCollector.analyzeAgentBehavior content).humanControlScore ≤ 61 := by
    simp only [SimpleCollector.analyzeAgentBehavior, SimpleCollector.rawPure,
      SimpleCollector.rawHuman, Classifier.jsRound]
    split_ifs <;> decide
  have hc : (Collector.analyzeAgentBehavior content).pureAgentScore ≤ 60 ∧
      (Collector.analyzeAgentBehavior content).humanControlScore ≤ 57 := by
    simp only [Collector.analyzeAgentBehavior, Collector.clampScore, Collector.rawPure,
      Collector.rawHuman, Classifier.jsRound]
    split_ifs <;> first | decide | (rename_i htot; exact absurd (by decide) htot)
  refine ⟨hs.1, hs.2, hc.1, hc.2, fun d => ?_, fun d => ?_⟩
  · unfold AnalyticsService.bucketStep
    rw [if_neg (by simp only []; omega), if_neg (by simp only []; omega)]
  · unfold AnalyticsService.bucketStep
    rw [if_neg (by simp only []; omega), if_neg (by simp only []; omega)]

theorem lookupEdge_update_absent :
    ∀ (st : SqlFns.EdgeStore) (k : SqlFns.InteractionKey) (t : ℕ),
      SqlFns.lookupEdge st k = none →
      SqlFns.lookupEdge (SqlFns.update_agent_interaction st k t) k =
        some { strength := 1, last_interaction := t } := by
  intro st k t
  induction st with
  | nil => intro _; simp [SqlFns.update_agent_interaction, SqlFns.lookupEdge]
  | cons hd rest ih =>
    obtain ⟨k0, v⟩ := hd
    intro h
    simp only [SqlFns.lookupEdge] at h
    by_cases hk : k0 = k
    · simp [hk] at h
    · simp only [hk, if_false] at h
      simp [SqlFns.update_agent_interaction, SqlFns.lookupEdge, hk, ih h]

theorem lookupEdge_update_present :
    ∀ (st : SqlFns.EdgeStore) (k : SqlFns.InteractionKey) (t : ℕ)
      (e : SqlFns.EdgeData),
      SqlFns.lookupEdge st k = some e →
      SqlFns.lookupEdge (SqlFns.update_agent_interaction st k t) k =
        some { strength := e.strength + 1, last_interaction := t } := by
  intro st k t
  induction st with
  | nil => intro e h; simp [SqlFns.lookupEdge] at h
  | cons hd rest ih =>
    obtain ⟨k0, v⟩ := hd
    intro e h
    simp only [SqlFns.lookupEdge] at h
    by_cases hk : k0 = k
    · simp only [hk, if_true, if_pos] at h
      obtain rfl : v = e := Option.some_injective _ h
      simp [SqlFns.update_agent_interaction, SqlFns.lookupEdge, hk]
    · simp only [hk, if_false] at h
      simp [SqlFns.update_agent_interaction, SqlFns.lookupEdge, hk, ih e h]

theorem lookupEdge_track_absent :
    ∀ (st : SqlFns.EdgeStore) (k : SqlFns.InteractionKey) (now : ℕ),
      SqlFns.lookupEdge st k = none →
      SqlFns.lookupEdge (SqlFns.trackInteraction st k now) k =
        some { strength := 1, last_interaction := now } := by
  intro st k now
  induction st with
  | nil => intro _; simp [SqlFns.trackInteraction, SqlFns.lookupEdge]
  | cons hd rest ih =>
    obtain ⟨k0, v⟩ := hd
    intro h
    simp only [SqlFns.lookupEdge] at h
    by_cases hk : k0 = k
    · simp [hk] at h
    · simp only [hk, if_false] at h
      simp [SqlFns.trackInteraction, SqlFns.lookupEdge, hk, ih h]

theorem lookupEdge_track_present :
    ∀ (st : SqlFns.EdgeStore) (k : SqlFns.InteractionKey) (now : ℕ)
      (e : SqlFns.EdgeData),
      SqlFns.lookupEdge st k = some e →
      SqlFns.lookupEdge (SqlFns.trackInteraction st k now) k =
        some { strength := e.strength, last_interaction := now } := by
  intro st k now
  induction st with
  | nil => intro e h; simp [SqlFns.lookupEdge] at h
  | cons hd rest ih =>
    obtain ⟨k0, v⟩ := hd
    intro e h
    simp only [SqlFns.lookupEdge] at h
    by_cases hk : k0 = k
    · simp only [hk, if_true, if_pos] at h
      obtain rfl : v = e := Option.some_injective _ h
      simp [SqlFns.trackInteraction, SqlFns.lookupEdge, hk]
    · simp only [hk, if_false] at h
      simp [SqlFns.trackInteraction, SqlFns.lookupEdge, hk, ih e h]

theorem strengthOf_update_mono :
    ∀ (st : SqlFns.EdgeStore) (k k' : SqlFns.InteractionKey) (t : ℕ),
      SqlFns.strengthOf st k ≤
        SqlFns.strengthOf (SqlFns.update_agent_interaction st k' t) k := by
  intro st k k' t
  induction st with
  | nil => simp [SqlFns.strengthOf, SqlFns.lookupEdge]
  | cons hd rest ih =>
    obtain ⟨k0, v⟩ := hd
    by_cases h1 : k0 = k'
    · subst h1
      by_cases h2 : k0 = k
      · subst h2
        simp [SqlFns.update_agent_interaction, SqlFns.strengthOf, SqlFns.lookupEdge,
          Option.elim]
      · simp [SqlFns.update_agent_interaction, SqlFns.strengthOf, SqlFns.lookupEdge,
          h2, Option.elim]
    · by_cases h2 : k0 = k
      · subst h2
        simp [SqlFns.update_agent_interaction, SqlFns.strengthOf, SqlFns.lookupEdge,
          h1, Option.elim]
      · simpa [SqlFns.update_agent_interaction, SqlFns.strengthOf, SqlFns.lookupEdge,
          h1, h2, Option.elim] using ih

theorem strengthOf_track_mono :
    ∀ (st : SqlFns.EdgeStore) (k k' : SqlFns.InteractionKey) (now : ℕ),
      SqlFns.strengthOf st k ≤
        SqlFns.strengthOf (SqlFns.trackInteraction st k' now) k := by
  intro st k k' now
  induction st with
  | nil => simp [SqlFns.strengthOf, SqlFns.lookupEdge]
  | cons hd rest ih =>
    obtain ⟨k0, v⟩ := hd
    by_cases h1 : k0 = k'
    · subst h1
      by_cases h2 : k0 = k
      · subst h2
        simp [SqlFns.trackInteraction, SqlFns.strengthOf, SqlFns.lookupEdge,
          Option.elim]
      · simp [SqlFns.trackInteraction, SqlFns.strengthOf, SqlFns.lookupEdge,
          h2, Option.elim]
    · by_cases h2 : k0 = k
      · subst h2
        simp [SqlFns.trackInteraction, SqlFns.strengthOf, SqlFns.lookupEdge,
          h1, Option.elim]
      · simpa [SqlFns.trackInteraction, SqlFns.strengthOf, SqlFns.lookupEdge,
          h1, h2, Option.elim] using ih

theorem strengthOf_applyEdgeOp_mono
    (st : SqlFns.EdgeStore) (op : SqlFns.EdgeOp) (k : SqlFns.InteractionKey) :
    SqlFns.strengthOf st k ≤ SqlFns.strengthOf (SqlFns.applyEdgeOp st op) k := by
  cases op with
  | trigger k' t => exact strengthOf_update_mono st k k' t
  | track k' t => exact strengthOf_track_mono st k k' t

/-- C5 counterexample: two observations of the same key through the
server's `trackInteraction` upsert leave the strength at 1 — the repeat
observation does not increment it (and `last_interaction` records the
call time, not the message's `createdAt`). -/
theorem edge_upsert_counterexample :
    SqlFns.lookupEdge
        (SqlFns.trackInteraction
          (SqlFns.trackInteraction ([] : SqlFns.EdgeStore)
            { source_agent_id := 1, target_agent_id := 2, interaction_type := "reply" } 1000)
          { source_agent_id := 1, target_agent_id := 2, interaction_type := "reply" } 2000)
        { source_agent_id := 1, target_agent_id := 2, interaction_type := "reply" } =
      some { strength := 1, last_interaction := 2000 } := by decide

/-- C5 (amended): the SQL trigger upsert `update_agent_interaction`
creates an absent `(source, target, type)` edge with `strength = 1` and on
every repeat observation increments the strength by 1 and sets
`last_interaction` to the message's `created_at`, exactly as claimed; the
server-side `trackInteraction` upsert also creates absent edges with
`strength = 1` (the column default) but leaves the strength unchanged on
repeat observations, rewriting only `last_interaction` (to the call
time).  Neither path ever decrements, so for a fixed key the strength is
non-decreasing across any sequence of writes. -/
theorem edge_upsert_behavior :
    (∀ (st : SqlFns.EdgeStore) (k : SqlFns.InteractionKey) (t : ℕ),
        SqlFns.lookupEdge st k = none →
        SqlFns.lookupEdge (SqlFns.update_agent_interaction st k t) k =
          some { strength := 1, last_interaction := t }) ∧
    (∀ (st : SqlFns.EdgeStore) (k : SqlFns.InteractionKey) (t : ℕ)
        (e : SqlFns.EdgeData),
        SqlFns.lookupEdge st k = some e →
        SqlFns.lookupEdge (SqlFns.update_agent_interaction st k t) k =
          some { strength := e.strength + 1, last_interaction := t }) ∧
    (∀ (st : SqlFns.EdgeStore) (k : SqlFns.InteractionKey) (now : ℕ),
        SqlFns.lookupEdge st k = none →
        SqlFns.lookupEdge (SqlFns.trackInteraction st k now) k =
          some { strength := 1, last_interaction := now }) ∧
    (∀ (st : SqlFns.EdgeStore) (k : SqlFns.InteractionKey) (now : ℕ)
        (e : SqlFns.EdgeData),
        SqlFns.lookupEdge st k = some e →
        SqlFns.lookupEdge (SqlFns.trackInteraction st k now) k =
          some { strength := e.strength, last_interaction := now }) ∧
    (∀ (st : SqlFns.EdgeStore) (k : SqlFns.InteractionKey) (ops : List SqlFns.EdgeOp),
        SqlFns.strengthOf st k ≤ SqlFns.strengthOf (SqlFns.applyEdgeOps st ops) k) := by
  refine ⟨lookupEdge_update_absent, lookupEdge_update_present,
    lookupEdge_track_absent, lookupEdge_track_present, fun st k ops => ?_⟩
  induction ops generalizing st with
  | nil => simp [SqlFns.applyEdgeOps]
  | cons op rest ih =>
    calc SqlFns.strengthOf st k
        ≤ SqlFns.strengthOf (SqlFns.applyEdgeOp st op) k :=
          strengthOf_applyEdgeOp_mono st op k
      _ ≤ SqlFns.strengthOf (SqlFns.applyEdgeOps (SqlFns.applyEdgeOp st op) rest) k :=
          ih (SqlFns.applyEdgeOp st op)
      _ = SqlFns.strengthOf (SqlFns.applyEdgeOps st (op :: rest)) k := by
          simp [SqlFns.applyEdgeOps]

theorem edge_upsert_behavior_witness :
    SqlFns.lookupEdge
        (SqlFns.update_agent_interaction ([] : SqlFns.EdgeStore)
          { source_agent_id := 1, target_agent_id := 2, interaction_type := "reply" } 1000)
        { source_agent_id := 1, target_agent_id := 2, interaction_type := "reply" } =
      some { strength := 1, last_interaction := 1000 } ∧
    SqlFns.lookupEdge
        (SqlFns.update_agent_interaction
          ([({ source_agent_id := 1, target_agent_id := 2, interaction_type := "reply" },
             { strength := 1, last_interaction := 1000 })] : SqlFns.EdgeStore)
          { source_agent_id := 1, target_agent_id := 2, interaction_type := "reply" } 2000)
        { source_agent_id := 1, target_agent_id := 2, interaction_type := "reply" } =
      some { strength := 2, last_interaction := 2000 } := by
  constructor
  · exact edge_upsert_behavior.1 []
      { source_agent_id := 1, target_agent_id := 2, interaction_type := "reply" } 1000
      (by decide)
  · exact edge_upsert_behavior.2.1
      [({ source_agent_id := 1, target_agent_id := 2, interaction_type := "reply" },
        { strength := 1, last_interaction := 1000 })]
      { source_agent_id := 1, target_agent_id := 2, interaction_type := "reply" } 2000
      { strength := 1, last_interaction := 1000 } (by decide)

theorem admitNew_known_mono :
    ∀ (batch : List ConversationEntry) (known : List (EntryType × ℕ))
      (x : EntryType × ℕ),
      x ∈ known → x ∈ (Collector.admitNew known batch).1 := by
  intro batch
  induction batch with
  | nil => intro known x hx; simpa [Collector.admitNew] using hx
  | cons e rest ih =>
    intro known x hx
    simp only [Collector.admitNew]
    split
    · exact ih known x hx
    · exact ih (Collector.entryKey e :: known) x (List.mem_cons_of_mem _ hx)

theorem admitNew_mem_key :
    ∀ (batch : List ConversationEntry) (known : List (EntryType × ℕ))
      (e : ConversationEntry),
      e ∈ batch → Collector.entryKey e ∈ (Collector.admitNew known batch).1 := by
  intro batch
  induction batch with
  | nil => intro known e he; simp at he
  | cons a rest ih =>
    intro known e he
    rcases List.mem_cons.mp he with rfl | he'
    · simp only [Collector.admitNew]
      split
      · exact admitNew_known_mono rest known _ (by assumption)
      · exact admitNew_known_mono rest (Collector.entryKey e :: known) _
          (List.mem_cons_self _ _)
    · simp only [Collector.admitNew]
      split
      · exact ih known e he'
      · exact ih (Collector.entryKey a :: known) e he'

theorem admitNew_all_known :
    ∀ (batch : List ConversationEntry) (known : List (EntryType × ℕ)),
      (∀ e ∈ batch, Collector.entryKey e ∈ known) →
      Collector.admitNew known batch = (known, []) := by
  intro batch
  induction batch with
  | nil => intro known _; rfl
  | cons e rest ih =>
    intro known hall
    simp only [Collector.admitNew]
    rw [if_pos (hall e (List.mem_cons_self e rest))]
    exact ih known fun a ha => hall a (List.mem_cons_of_mem e ha)

/-- C2: processing the same raw batch a second time is a no-op — every key
admitted in the first run is in the ledger, so the second run admits
nothing, appends nothing to the dataset, and leaves every per-agent total
unchanged. -/
theorem collection_idempotent :
    ∀ (s : Collector.CollectorState) (batch : List ConversationEntry),
      Collector.collectForumData (Collector.collectForumData s batch) batch =
        Collector.collectForumData s batch ∧
      ∀ name : String,
        Collector.totalMessagesFor
            (Collector.collectForumData (Collector.collectForumData s batch) batch).dataset
            name =
          Collector.totalMessagesFor (Collector.collectForumData s batch).dataset name := by
  intro s batch
  have hkeys : ∀ e ∈ batch,
      Collector.entryKey e ∈ (Collector.collectForumData s batch).knownEntries :=
    fun e he => admitNew_mem_key batch s.knownEntries e he
  have hsecond :
      Collector.admitNew (Collector.collectForumData s batch).knownEntries batch =
        ((Collector.collectForumData s batch).knownEntries, []) :=
    admitNew_all_known batch _ hkeys
  have heq : Collector.collectForumData (Collector.collectForumData s batch) batch =
      Collector.collectForumData s batch := by
    simp only [Collector.collectForumData] at hsecond ⊢
    simp [hsecond]
  exact ⟨heq, fun name => by rw [heq]⟩

theorem mkCoordinatedFinding_window_start
    (now : ℕ) (convs : List ConversationEntry) (k : ℕ)
    (g : RealtimeSvc.SuspiciousPattern)
    (h : RealtimeSvc.mkCoordinatedFinding now convs k = some g) :
    g.window_start = k * 5000 := by
  unfold RealtimeSvc.mkCoordinatedFinding at h
  split at h
  · cases h; rfl
  · cases h

theorem filterMap_filter_window_single
    (mk : ℕ → Option RealtimeSvc.SuspiciousPattern)
    (hws : ∀ k' g, mk k' = some g → g.window_start = k' * 5000) :
    ∀ (l : List ℕ), l.Nodup →
      ∀ (k : ℕ) (f : RealtimeSvc.SuspiciousPattern), k ∈ l → mk k = some f →
      (l.filterMap mk).filter (fun g => g.window_start == k * 5000) = [f] := by
  intro l
  induction l with
  | nil => intro _ k f hk; simp at hk
  | cons a as ih =>
    intro hnd k f hk hmk
    have hnodup := List.nodup_cons.mp hnd
    rcases List.mem_cons.mp hk with rfl | hk'
    · rw [List.filterMap_cons, hmk]
      have hf : f.window_start = k * 5000 := hws k f hmk
      rw [List.filter_cons]
      rw [if_pos (by simp [hf])]
      have hrest : (as.filterMap mk).filter (fun g => g.window_start == k * 5000) = [] := by
        rw [List.filter_eq_nil_iff]
        intro g hg
        obtain ⟨k', hk'mem, hk'some⟩ := List.mem_filterMap.mp hg
        have hws' := hws k' g hk'some
        have hne : k' ≠ k := fun he => hnodup.1 (he ▸ hk'mem)
        simp only [hws', beq_iff_eq]
        exact fun he => hne (Nat.eq_of_mul_eq_mul_right (by norm_num) he)
      rw [hrest]
    · have hka : k ≠ a := fun he => hnodup.1 (he ▸ hk')
      rw [List.filterMap_cons]
      cases hmka : mk a with
      | none => exact ih hnodup.2 k f hk' hmk
      | some g =>
        rw [List.filter_cons]
        rw [if_neg (by
          simp only [hws a g hmka, beq_iff_eq]
          exact fun he => hka ((Nat.eq_of_mul_eq_mul_right (by norm_num) he).symm))]
        exact ih hnodup.2 k f hk' hmk

theorem filterMap_filter_window_nil
    (mk : ℕ → Option RealtimeSvc.SuspiciousPattern)
    (hws : ∀ k' g, mk k' = some g → g.window_start = k' * 5000)
    (l : List ℕ) (k : ℕ) (hnone : mk k = none) :
    (l.filterMap mk).filter (fun g => g.window_start == k * 5000) = [] := by
  rw [List.filter_eq_nil_iff]
  intro g hg
  obtain ⟨k', hk'mem, hk'some⟩ := List.mem_filterMap.mp hg
  have hws' := hws k' g hk'some
  have hne : k' ≠ k := fun he => by rw [he, hnone] at hk'some; cases hk'some
  simp only [hws', beq_iff_eq]
  exact fun he => hne (Nat.eq_of_mul_eq_mul_right (by norm_num) he)

/-- C7: within the last hour's messages, every 5-second bucket holding at
least 3 distinct agent ids yields exactly one `coordinated_posting`
finding — `medium` severity, confidence 75, evidence the bucket window
start and the distinct-agent count (and set of ids) — while buckets below
the threshold yield none, and every finding of this detector has that
shape. -/
theorem coordinated_posting_detection :
    (∀ (now : ℕ) (convs : List ConversationEntry) (k : ℕ),
        3 ≤ (RealtimeSvc.bucketAgents now convs k).length →
        (RealtimeSvc.detectCoordinatedPosting now convs).filter
            (fun f => f.window_start == k * 5000) =
          [{ pattern_type := "coordinated_posting"
             agent_ids := RealtimeSvc.bucketAgents now convs k
             severity := "medium"
             confidence_score := 75
             window_start := k * 5000
             agent_count := (RealtimeSvc.bucketAgents now convs k).length }]) ∧
    (∀ (now : ℕ) (convs : List ConversationEntry) (k : ℕ),
        (RealtimeSvc.bucketAgents now convs k).length < 3 →
        (RealtimeSvc.detectCoordinatedPosting now convs).filter
            (fun f => f.window_start == k * 5000) = []) ∧
    (∀ (now : ℕ) (convs : List ConversationEntry)
        (f : RealtimeSvc.SuspiciousPattern),
        f ∈ RealtimeSvc.detectCoordinatedPosting now convs →
        f.pattern_type = "coordinated_posting" ∧ f.severity = "medium" ∧
          f.confidence_score = 75 ∧ f.agent_count = f.agent_ids.length ∧
          3 ≤ f.agent_count) := by
  refine ⟨fun now convs k h3 => ?_, fun now convs k hlt => ?_, fun now convs f hf => ?_⟩
  · have hlen : (RealtimeSvc.bucketAgents now convs k).length ≤
        (convs.filter fun c => now - 3600000 ≤ c.createdAt).length := by
      calc (RealtimeSvc.bucketAgents now convs k).length
          ≤ (((convs.filter fun c => now - 3600000 ≤ c.createdAt).filter
              fun c => RealtimeSvc.windowKey c == k).map (·.agentId)).length :=
            length_uniqFirst_le _
        _ = ((convs.filter fun c => now - 3600000 ≤ c.createdAt).filter
              fun c => RealtimeSvc.windowKey c == k).length := List.length_map _ _
        _ ≤ (convs.filter fun c => now - 3600000 ≤ c.createdAt).length :=
            List.length_filter_le _ _
    have hnotlt : ¬ (convs.filter fun c => now - 3600000 ≤ c.createdAt).length < 3 := by
      omega
    have hkmem : k ∈ uniqFirst ((convs.filter fun c => now - 3600000 ≤ c.createdAt).map
        RealtimeSvc.windowKey) := by
      rw [mem_uniqFirst]
      have hne : RealtimeSvc.bucketAgents now convs k ≠ [] := by
        intro he
        rw [he] at h3
        simp at h3
      have : ((convs.filter fun c => now - 3600000 ≤ c.createdAt).filter
          fun c => RealtimeSvc.windowKey c == k) ≠ [] := by
        intro he
        apply hne
        unfold RealtimeSvc.bucketAgents
        rw [he]
        rfl
      obtain ⟨c, hc⟩ := List.exists_mem_of_ne_nil _ this
      have hc2 := List.mem_filter.mp hc
      exact List.mem_map.mpr ⟨c, hc2.1, beq_iff_eq.mp hc2.2⟩
    unfold RealtimeSvc.detectCoordinatedPosting
    rw [if_neg hnotlt]
    exact filterMap_filter_window_single _ (mkCoordinatedFinding_window_start now convs) _
      (nodup_uniqFirst _) k _ hkmem
      (by unfold RealtimeSvc.mkCoordinatedFinding; rw [if_pos h3])
  · simp only [RealtimeSvc.detectCoordinatedPosting]
    split
    · simp
    · exact filterMap_filter_window_nil _ (mkCoordinatedFinding_window_start now convs) _ k
        (by unfold RealtimeSvc.mkCoordinatedFinding; rw [if_neg (by omega)])
  · simp only [RealtimeSvc.detectCoordinatedPosting] at hf
    split at hf
    · simp at hf
    · obtain ⟨k', _, hk'some⟩ := List.mem_filterMap.mp hf
      unfold RealtimeSvc.mkCoordinatedFinding at hk'some
      split at hk'some
      · cases hk'some
        rename_i hge
        exact ⟨rfl, rfl, rfl, rfl, hge⟩
      · cases hk'some

theorem coordinated_posting_detection_witness :
    3 ≤ (RealtimeSvc.bucketAgents 3600000
        [{ type := EntryType.post, id := 1, agentId := 1, agentName := "a",
           pureAgentScore := 50, humanControlScore := 50, createdAt := 3600000, tags := [] },
         { type := EntryType.post, id := 2, agentId := 2, agentName := "b",
           pureAgentScore := 50, humanControlScore := 50, createdAt := 3600001, tags := [] },
         { type := EntryType.post, id := 3, agentId := 3, agentName := "c",
           pureAgentScore := 50, humanControlScore := 50, createdAt := 3600002, tags := [] }]
        720).length ∧
    (RealtimeSvc.detectCoordinatedPosting 3600000
        [{ type := EntryType.post, id := 1, agentId := 1, agentName := "a",
           pureAgentScore := 50, humanControlScore := 50, createdAt := 3600000, tags := [] },
         { type := EntryType.post, id := 2, agentId := 2, agentName := "b",
           pureAgentScore := 50, humanControlScore := 50, createdAt := 3600001, tags := [] },
         { type := EntryType.post, id := 3, agentId := 3, agentName := "c",
           pureAgentScore := 50, humanControlScore := 50, createdAt := 3600002, tags := [] }]).filter
        (fun f => f.window_start == 720 * 5000) =
      [{ pattern_type := "coordinated_posting", agent_ids := [1, 2, 3],
         severity := "medium", confidence_score := 75,
         window_start := 3600000, agent_count := 3 }] := by
  have hb : RealtimeSvc.bucketAgents 3600000
      [{ type := EntryType.post, id := 1, agentId := 1, agentName := "a",
         pureAgentScore := 50, humanControlScore := 50, createdAt := 3600000, tags := [] },
       { type := EntryType.post, id := 2, agentId := 2, agentName := "b",
         pureAgentScore := 50, humanControlScore := 50, createdAt := 3600001, tags := [] },
       { type := EntryType.post, id := 3, agentId := 3, agentName := "c",
         pureAgentScore := 50, humanControlScore := 50, createdAt := 3600002, tags := [] }]
      720 = [1, 2, 3] := by decide
  have h := coordinated_posting_detection.1 3600000
    [{ type := EntryType.post, id := 1, agentId := 1, agentName := "a",
       pureAgentScore := 50, humanControlScore := 50, createdAt := 3600000, tags := [] },
     { type := EntryType.post, id := 2, agentId := 2, agentName := "b",
       pureAgentScore := 50, humanControlScore := 50, createdAt := 3600001, tags := [] },
     { type := EntryType.post, id := 3, agentId := 3, agentName := "c",
       pureAgentScore := 50, humanControlScore := 50, createdAt := 3600002, tags := [] }]
    720 (by rw [hb]; decide)
  rw [hb] at h
  exact ⟨by rw [hb]; decide, by simpa using h⟩

theorem foldAgents_append (convs : List ConversationEntry) (c : ConversationEntry) :
    AnalyticsService.foldAgents (convs ++ [c]) =
      AnalyticsService.updateAgents (AnalyticsService.foldAgents convs) c := by
  simp [AnalyticsService.foldAgents, List.foldl_append]

theorem agentConvs_append (convs : List ConversationEntry) (c : ConversationEntry)
    (name : String) :
    AnalyticsService.agentConvs (convs ++ [c]) name =
      AnalyticsService.agentConvs convs name ++
        (if c.agentName == name then [c] else []) := by
  simp only [AnalyticsService.agentConvs, List.filter_append]
  congr 1
  by_cases h : c.agentName == name <;> simp [List.filter, h]

theorem updateAgents_keys (c : ConversationEntry) :
    ∀ m : List (String × AnalyticsService.AgentAcc),
      (AnalyticsService.updateAgents m c).map Prod.fst =
        if c.agentName ∈ m.map Prod.fst then m.map Prod.fst
        else m.map Prod.fst ++ [c.agentName] := by
  intro m
  induction m with
  | nil => simp [AnalyticsService.updateAgents]
  | cons hd rest ih =>
    obtain ⟨k, v⟩ := hd
    by_cases hk : k = c.agentName
    · subst hk
      simp [AnalyticsService.updateAgents]
    · simp only [AnalyticsService.updateAgents, hk, if_false, List.map_cons, ih]
      by_cases hmem : c.agentName ∈ rest.map Prod.fst
      · rw [if_pos hmem, if_pos (List.mem_cons_of_mem k hmem)]
      · have hmm : c.agentName ∉ k :: rest.map Prod.fst := by
          simp only [List.mem_cons]
          push_neg
          exact ⟨fun h => hk h.symm, hmem⟩
        rw [if_neg hmem, if_neg hmm]
        simp

theorem mem_updateAgents (c : ConversationEntry) :
    ∀ m : List (String × AnalyticsService.AgentAcc),
      (m.map Prod.fst).Nodup →
      ∀ q ∈ AnalyticsService.updateAgents m c,
        (q ∈ m ∧ q.1 ≠ c.agentName) ∨
        (∃ v, (c.agentName, v) ∈ m ∧
            q = (c.agentName, AnalyticsService.stepAcc v c)) ∨
        (c.agentName ∉ m.map Prod.fst ∧
            q = (c.agentName, AnalyticsService.initAcc c)) := by
  intro m
  induction m with
  | nil =>
    intro _ q hq
    simp only [AnalyticsService.updateAgents, List.mem_singleton] at hq
    exact Or.inr (Or.inr ⟨by simp, hq⟩)
  | cons hd rest ih =>
    obtain ⟨k, v⟩ := hd
    intro hnd q hq
    have hnd2 : (k :: rest.map Prod.fst).Nodup := by simpa only [List.map_cons] using hnd
    have hnd' := List.nodup_cons.mp hnd2
    by_cases hk : k = c.agentName
    · subst hk
      simp only [AnalyticsService.updateAgents, if_pos rfl] at hq
      rcases List.mem_cons.mp hq with rfl | hq'
      · exact Or.inr (Or.inl ⟨v, List.mem_cons_self _ _, rfl⟩)
      · refine Or.inl ⟨List.mem_cons_of_mem _ hq', fun he => ?_⟩
        apply hnd'.1
        rw [← he]
        exact List.mem_map.mpr ⟨q, hq', rfl⟩
    · simp only [AnalyticsService.updateAgents, hk, if_false] at hq
      rcases List.mem_cons.mp hq with rfl | hq'
      · exact Or.inl ⟨List.mem_cons_self _ _, hk⟩
      · rcases ih hnd'.2 q hq' with ⟨hmem, hne⟩ | ⟨v', hv', heq⟩ | ⟨hnot, heq⟩
        · exact Or.inl ⟨List.mem_cons_of_mem _ hmem, hne⟩
        · exact Or.inr (Or.inl ⟨v', List.mem_cons_of_mem _ hv', heq⟩)
        · refine Or.inr (Or.inr ⟨?_, heq⟩)
          simp only [List.map_cons, List.mem_cons]
          push_neg
          exact ⟨fun h => hk h.symm, hnot⟩

theorem foldAgents_inv :
    ∀ convs : List ConversationEntry,
      ((AnalyticsService.foldAgents convs).map Prod.fst).Nodup ∧
      (∀ q ∈ AnalyticsService.foldAgents convs,
          q.2.messages = (AnalyticsService.agentConvs convs q.1).length ∧
          q.2.posts = ((AnalyticsService.agentConvs convs q.1).filter
              fun c => c.type = EntryType.post).length ∧
          q.2.comments = ((AnalyticsService.agentConvs convs q.1).filter
              fun c => c.type = EntryType.comment).length ∧
          q.2.pureScores = AnalyticsService.pureScoresOf convs q.1 ∧
          q.2.humanScores = AnalyticsService.humanScoresOf convs q.1) ∧
      (∀ name : String,
          name ∉ (AnalyticsService.foldAgents convs).map Prod.fst →
          AnalyticsService.agentConvs convs name = []) := by
  intro convs
  induction convs using List.reverseRecOn with
  | nil =>
    refine ⟨by simp [AnalyticsService.foldAgents],
      by simp [AnalyticsService.foldAgents], fun name _ => rfl⟩
  | append_singleton convs c ih =>
    obtain ⟨ih1, ih2, ih3⟩ := ih
    refine ⟨?_, ?_, ?_⟩
    · rw [foldAgents_append, updateAgents_keys]
      split
      · exact ih1
      · rename_i hnot
        simp [List.nodup_append, ih1, hnot]
    · intro q hq
      rw [foldAgents_append] at hq
      rcases mem_updateAgents c _ ih1 q hq with ⟨hmem, hne⟩ | ⟨v, hv, rfl⟩ | ⟨hnot, rfl⟩
      · obtain ⟨h1, h2, h3, h4, h5⟩ := ih2 q hmem
        have hbeq : (c.agentName == q.1) = false :=
          beq_eq_false_iff_ne.mpr fun h => hne h.symm
        refine ⟨?_, ?_, ?_, ?_, ?_⟩ <;>
          simp [AnalyticsService.pureScoresOf, AnalyticsService.humanScoresOf,
            agentConvs_append, hbeq, h1, h2, h3, h4, h5]
      · obtain ⟨h1, h2, h3, h4, h5⟩ := ih2 (c.agentName, v) hv
        dsimp only at h1 h2 h3 h4 h5
        have hagent : AnalyticsService.agentConvs (convs ++ [c]) c.agentName =
            AnalyticsService.agentConvs convs c.agentName ++ [c] := by
          simp [agentConvs_append]
        refine ⟨?_, ?_, ?_, ?_, ?_⟩ <;>
          simp [AnalyticsService.stepAcc, AnalyticsService.pureScoresOf,
            AnalyticsService.humanScoresOf, hagent, List.filter_append,
            List.filter_singleton, apply_ite List.length, h1, h2, h3, h4, h5]
        all_goals cases hty : c.type <;> simp [hty]
      · have hconvs : AnalyticsService.agentConvs convs c.agentName = [] := ih3 _ hnot
        have hagent : AnalyticsService.agentConvs (convs ++ [c]) c.agentName = [c] := by
          simp [agentConvs_append, hconvs]
        refine ⟨?_, ?_, ?_, ?_, ?_⟩ <;>
          simp [AnalyticsService.initAcc, AnalyticsService.pureScoresOf,
            AnalyticsService.humanScoresOf, hagent, List.filter_singleton,
            apply_ite List.length]
        all_goals cases hty : c.type <;> simp [hty]
    · intro name hname
      rw [foldAgents_append, updateAgents_keys] at hname
      have h1 : name ∉ (AnalyticsService.foldAgents convs).map Prod.fst ∧
          name ≠ c.agentName := by
        split at hname
        · rename_i hmem
          exact ⟨hname, fun he => hname (he ▸ hmem)⟩
        · simp only [List.mem_append, List.mem_singleton] at hname
          push_neg at hname
          exact ⟨hname.1, hname.2⟩
      have hbeq : (c.agentName == name) = false :=
        beq_eq_false_iff_ne.mpr fun h => h1.2 h.symm
      rw [agentConvs_append, ih3 name h1.1, hbeq]
      rfl

/-- C4 (amended): every computed `AgentProfile` satisfies
`totalMessages = posts + comments` and its `totalMessages` counts exactly
the folded scores; `getTopAgents` rounds the running averages to one
decimal, so `avgPureScore` is within `1/20` of the arithmetic mean of the
folded scores (not within `1e-6` — see the counterexample), while
`updateAgentStatistics` computes the exact mean (trivially within
`1e-6`). -/
theorem agent_profile_consistency :
    (∀ (limit : ℕ) (convs : List ConversationEntry),
        (AnalyticsService.getTopAgents limit convs).Forall fun prof =>
          prof.totalMessages = prof.posts + prof.comments ∧
          prof.totalMessages =
            (AnalyticsService.pureScoresOf convs prof.agentName).length ∧
          |prof.avgPureScore -
              AnalyticsService.meanQ
                (AnalyticsService.pureScoresOf convs prof.agentName)| ≤ 1/20 ∧
          |prof.avgHumanScore -
              AnalyticsService.meanQ
                (AnalyticsService.humanScoresOf convs prof.agentName)| ≤ 1/20) ∧
    (∀ (agentId : ℕ) (convs : List ConversationEntry),
        (RealtimeSvc.updateAgentStatistics agentId convs).elim True fun stats =>
          stats.totalMessages = stats.posts + stats.comments ∧
          |stats.avgPureScore -
              AnalyticsService.meanQ
                (RealtimeSvc.pureScoresOfId convs agentId)| ≤ 1/1000000 ∧
          |stats.avgHumanScore -
              AnalyticsService.meanQ
                (RealtimeSvc.humanScoresOfId convs agentId)| ≤ 1/1000000) := by
  constructor
  · intro limit convs
    rw [List.forall_iff_forall_mem]
    intro prof hprof
    have h1 := List.mem_of_mem_take hprof
    have h2 : prof ∈ (AnalyticsService.foldAgents convs).map AnalyticsService.toProfile :=
      (List.perm_insertionSort _ _).mem_iff.mp h1
    obtain ⟨q, hq, rfl⟩ := List.mem_map.mp h2
    obtain ⟨inv1, inv2, inv3⟩ := foldAgents_inv convs
    obtain ⟨f1, f2, f3, f4, f5⟩ := inv2 q hq
    refine ⟨?_, ?_, ?_, ?_⟩
    · show q.2.messages = q.2.posts + q.2.comments
      rw [f1, f2, f3]
      exact length_type_split (AnalyticsService.agentConvs convs q.1)
    · show q.2.messages = (AnalyticsService.pureScoresOf convs q.1).length
      rw [f1, AnalyticsService.pureScoresOf, List.length_map]
    · show |AnalyticsService.roundTenth
          ((q.2.pureScores.sum : ℚ) / (q.2.pureScores.length : ℚ)) -
          AnalyticsService.meanQ (AnalyticsService.pureScoresOf convs q.1)| ≤ 1/20
      rw [f4]
      exact roundTenth_close _
    · show |AnalyticsService.roundTenth
          ((q.2.humanScores.sum : ℚ) / (q.2.humanScores.length : ℚ)) -
          AnalyticsService.meanQ (AnalyticsService.humanScoresOf convs q.1)| ≤ 1/20
      rw [f5]
      exact roundTenth_close _
  · intro agentId convs
    simp only [RealtimeSvc.updateAgentStatistics]
    split
    · simp [Option.elim]
    · rename_i c0 tail heq
      simp only [Option.elim]
      refine ⟨length_type_split _, ?_, ?_⟩
      · have hm : AnalyticsService.meanQ (RealtimeSvc.pureScoresOfId convs agentId) =
            (((convs.filter fun c => c.agentId == agentId).map (·.pureAgentScore)).sum : ℚ) /
              (((convs.filter fun c => c.agentId == agentId)).length : ℚ) := by
          simp only [AnalyticsService.meanQ, RealtimeSvc.pureScoresOfId,
            RealtimeSvc.idConvs, List.length_map]
          rw [Nat.cast_list_sum, List.map_map]
          rfl
        rw [hm, sub_self, abs_zero]
        norm_num
      · have hm : AnalyticsService.meanQ (RealtimeSvc.humanScoresOfId convs agentId) =
            (((convs.filter fun c => c.agentId == agentId).map (·.humanControlScore)).sum : ℚ) /
              (((convs.filter fun c => c.agentId == agentId)).length : ℚ) := by
          simp only [AnalyticsService.meanQ, RealtimeSvc.humanScoresOfId,
            RealtimeSvc.idConvs, List.length_map]
          rw [Nat.cast_list_sum, List.map_map]
          rfl
        rw [hm, sub_self, abs_zero]
        norm_num

/-- C4 counterexample: three messages of one agent scoring 50, 50, 51 give
a true mean of `151/3 = 50.333…`, but `getTopAgents` reports the
one-decimal rounding `50.3`, off by `1/30` — far more than the claimed
`1e-6` tolerance. -/
theorem agent_profile_avg_counterexample :
    ((AnalyticsService.getTopAgents 20
          [{ type := EntryType.post, id := 1, agentId := 7, agentName := "a",
             pureAgentScore := 50, humanControlScore := 50, createdAt := 0, tags := [] },
           { type := EntryType.post, id := 2, agentId := 7, agentName := "a",
             pureAgentScore := 50, humanControlScore := 50, createdAt := 0, tags := [] },
           { type := EntryType.post, id := 3, agentId := 7, agentName := "a",
             pureAgentScore := 51, humanControlScore := 49, createdAt := 0, tags := [] }]).map
        fun p => p.avgPureScore) = [503/10] ∧
    AnalyticsService.pureScoresOf
        [{ type := EntryType.post, id := 1, agentId := 7, agentName := "a",
           pureAgentScore := 50, humanControlScore := 50, createdAt := 0, tags := [] },
         { type := EntryType.post, id := 2, agentId := 7, agentName := "a",
           pureAgentScore := 50, humanControlScore := 50, createdAt := 0, tags := [] },
         { type := EntryType.post, id := 3, agentId := 7, agentName := "a",
           pureAgentScore := 51, humanControlScore := 49, createdAt := 0, tags := [] }] "a" =
      [50, 50, 51] ∧
    AnalyticsService.meanQ [50, 50, 51] = 151/3 ∧
    |(503 : ℚ)/10 - 151/3| > 1/1000000 := by
  have hf : AnalyticsService.foldAgents
      [{ type := EntryType.post, id := 1, agentId := 7, agentName := "a",
         pureAgentScore := 50, humanControlScore := 50, createdAt := 0, tags := [] },
       { type := EntryType.post, id := 2, agentId := 7, agentName := "a",
         pureAgentScore := 50, humanControlScore := 50, createdAt := 0, tags := [] },
       { type := EntryType.post, id := 3, agentId := 7, agentName := "a",
         pureAgentScore := 51, humanControlScore := 49, createdAt := 0, tags := [] }] =
      [("a", { agentId := 7, messages := 3, posts := 3, comments := 0,
               pureScores := [50, 50, 51], humanScores := [50, 50, 49], tags := [],
               firstSeen := 0, lastSeen := 0 })] := by decide
  refine ⟨?_, by decide, ?_, ?_⟩
  · have hstep : AnalyticsService.getTopAgents 20
        [{ type := EntryType.post, id := 1, agentId := 7, agentName := "a",
           pureAgentScore := 50, humanControlScore := 50, createdAt := 0, tags := [] },
         { type := EntryType.post, id := 2, agentId := 7, agentName := "a",
           pureAgentScore := 50, humanControlScore := 50, createdAt := 0, tags := [] },
         { type := EntryType.post, id := 3, agentId := 7, agentName := "a",
           pureAgentScore := 51, humanControlScore := 49, createdAt := 0, tags := [] }] =
        [AnalyticsService.toProfile
          ("a", { agentId := 7, messages := 3, posts := 3, comments := 0,
                  pureScores := [50, 50, 51], humanScores := [50, 50, 49], tags := [],
                  firstSeen := 0, lastSeen := 0 })] := by
      unfold AnalyticsService.getTopAgents
      rw [hf]
      rfl
    rw [hstep, List.map_cons, List.map_nil]
    norm_num [AnalyticsService.toProfile, AnalyticsService.roundTenth,
      List.sum_cons, List.sum_nil]
  · norm_num [AnalyticsService.meanQ, List.sum_cons, List.sum_nil]
  · rw [abs_sub_comm, abs_of_pos (by norm_num : (0:ℚ) < 151/3 - 503/10)]
    norm_num
